import Mathlib

/-!
Shallow embedding of the chess engine in
`src/chess_backend/src/chess/engine.py` (module `chess.engine`).

Conventions of the embedding:
- Python's in-place mutation of the single `ChessGame` object is modelled by
  explicit state passing: every method takes a `GameState` and returns the
  state after the call.  A method that raises `IllegalMoveError` returns
  `Except.error e` together with the state as it stands when the exception
  propagates (normally the input state, but `apply_move` can raise after it
  has already written the board, and the model keeps that written board).
- Each distinct `raise IllegalMoveError(...)` site in the source is one
  constructor of `ChessError`; the constructor stands for the message string
  raised there.
- Board indices are natural numbers; `algebraic_to_index` only ever returns
  values in `[0,7]` after its range checks, matching the Python ints on the
  reachable domain.  Where the source computes a possibly negative index
  (`dr`, `dc`, the clear-path cursor, the pawn's intermediate row) the model
  uses `Int` and reads the board through `getCellI`, which returns `none`
  off the board (the loop-termination theorem shows such reads never happen
  on the reachable aligned inputs).
- The `while` loop of `_require_clear_path` is modelled with explicit fuel;
  exhausting the fuel yields the marker error `ChessError.nonterminating`,
  which is proved unreachable from `apply_move`.
-/

deriving instance DecidableEq for Except

namespace ChessEngine

inductive Color where
  | white
  | black
deriving DecidableEq

inductive PieceType where
  | pawn
  | rook
  | knight
  | bishop
  | queen
  | king
deriving DecidableEq

inductive GameStatus where
  | in_progress
deriving DecidableEq

/-- A chess piece on the board (dataclass `Piece`). -/
structure Piece where
  type : PieceType
  color : Color
deriving DecidableEq

/-- One move of the chronological history (dataclass `MoveRecord`).
The `piece` field stores the `(type, color)` snapshot that Python keeps as a
dict produced by `Piece.to_dict`. -/
structure MoveRecord where
  moveNumber : Nat
  color : Color
  from_square : String
  to_square : String
  capture : Bool
  promotion : Option String
  piece : Piece
deriving DecidableEq

/-- One constructor per `raise IllegalMoveError(...)` site of `engine.py`,
plus the fuel-exhaustion marker `nonterminating` (see module comment). -/
inductive ChessError where
  | gameNotInProgress
  | sameSquare
  | invalidSquareForm
  | invalidFile
  | invalidRank
  | indexOutOfBounds
  | emptySource (sq : String)
  | wrongTurn (turn : Color)
  | friendlyCapture
  | illegalKnightMove
  | illegalBishopMove
  | illegalRookMove
  | illegalQueenMove
  | illegalKingMove
  | unknownPieceType
  | promotionNotAllowed
  | illegalPawnCapture
  | illegalPawnMove
  | pawnBlocked
  | pathBlocked
  | invalidPromotion
  | nonterminating
deriving DecidableEq

/-- `board` field of `ChessGame`: 8x8 list of optional pieces,
row 0 = rank 8, row 7 = rank 1. -/
abbrev Board := List (List (Option Piece))

/-- Read `board[r][c]` for in-range natural indices (out-of-range reads give
`none`; they are unreachable in the verified call paths). -/
def getCell (b : Board) (r c : Nat) : Option Piece :=
  (b.getD r []).getD c none

/-- Read `board[r][c]` where the source may compute the index as a Python int;
negative indices give `none` (Python's negative-index wrap-around is
unreachable in the verified call paths, see the clear-path theorem). -/
def getCellI (b : Board) (r c : Int) : Option Piece :=
  if 0 ≤ r ∧ 0 ≤ c then getCell b r.toNat c.toNat else none

/-- Write `board[r][c] = p` (no-op out of range, unreachable in call paths). -/
def setCell (b : Board) (r c : Nat) (p : Option Piece) : Board :=
  b.set r ((b.getD r []).set c p)

/-- ASCII lowering of one character, the effect of Python's `str.lower` on
the one-character inputs the engine handles. -/
def pyLowerChar (ch : Char) : Char :=
  if 65 ≤ ch.toNat ∧ ch.toNat ≤ 90 then Char.ofNat (ch.toNat + 32) else ch

/-- Python `s.lower()` on an ASCII string. -/
def pyLowerStr (s : String) : String :=
  String.mk (s.data.map pyLowerChar)

/-- `algebraic_to_index` (engine.py lines 311-326): convert `'e2'` to
`(row, col)`.  The three checks (length, file range, rank range) and their
order are those of the source. -/
def algebraic_to_index (square : String) : Except ChessError (Nat × Nat) :=
  match square.data with
  | [f, r] =>
    let file_char := pyLowerChar f
    let rank_char := r
    if file_char < 'a' ∨ file_char > 'h' then
      .error .invalidFile
    else if rank_char < '1' ∨ rank_char > '8' then
      .error .invalidRank
    else
      -- col = ord(file_char) - ord('a'); rank = int(rank_char); row = 8 - rank
      let col := file_char.toNat - 'a'.toNat
      let rank := rank_char.toNat - '0'.toNat
      .ok (8 - rank, col)
  | _ => .error .invalidSquareForm

/-- `index_to_algebraic` (engine.py lines 329-336).  Indices are naturals in
the model, so the source's `0 <= row` conjunct holds by type. -/
def index_to_algebraic (idx : Nat × Nat) : Except ChessError String :=
  if idx.1 ≤ 7 ∧ idx.2 ≤ 7 then
    .ok (String.mk [Char.ofNat ('a'.toNat + idx.2), Char.ofNat ('0'.toNat + (8 - idx.1))])
  else
    .error .indexOutOfBounds

/-- The mutable fields of `ChessGame`. -/
structure GameState where
  board : Board
  current_turn : Color
  game_status : GameStatus
  history : List MoveRecord
deriving DecidableEq

/-- `back_rank` list of `ChessGame.restart`. -/
def back_rank : List PieceType :=
  [.rook, .knight, .bishop, .queen, .king, .bishop, .knight, .rook]

/-- The fresh `[[None]*8]*8` board built at the top of `restart`. -/
def emptyBoard : Board :=
  List.replicate 8 (List.replicate 8 (none : Option Piece))

/-- `ChessGame.restart` (engine.py lines 79-100): rebuild the standard
position, reset turn, status and history.  The four placement loops of the
source become four folds. -/
def restart (_g : GameState) : GameState :=
  let b0 := emptyBoard
  let b1 := back_rank.enum.foldl
    (fun b cp => setCell b 0 cp.1 (some { type := cp.2, color := .black })) b0
  let b2 := (List.range 8).foldl
    (fun b col => setCell b 1 col (some { type := .pawn, color := .black })) b1
  let b3 := (List.range 8).foldl
    (fun b col => setCell b 6 col (some { type := .pawn, color := .white })) b2
  let b4 := back_rank.enum.foldl
    (fun b cp => setCell b 7 cp.1 (some { type := cp.2, color := .white })) b3
  { board := b4, current_turn := .white, game_status := .in_progress, history := [] }

/-- `ChessGame.__init__`: empty fields, then `restart`; the module-level
singleton `GAME = ChessGame()`. -/
def GAME : GameState :=
  restart { board := emptyBoard, current_turn := .white,
            game_status := .in_progress, history := [] }

/-- Loop body of `_require_clear_path` (engine.py lines 304-308), with fuel.
Running out of fuel yields the `nonterminating` marker, proved unreachable
from `apply_move`. -/
def clear_path_go (b : Board) (toR toC stepR stepC : Int) (r c : Int) :
    Nat → Except ChessError Unit
  | 0 => .error .nonterminating
  | fuel + 1 =>
    if r = toR ∧ c = toC then .ok ()
    else if (getCellI b r c).isSome then .error .pathBlocked
    else clear_path_go b toR toC stepR stepC (r + stepR) (c + stepC) fuel

/-- `ChessGame._require_clear_path` (engine.py lines 294-308). -/
def require_clear_path (b : Board) (fr to_ : Nat × Nat) : Except ChessError Unit :=
  let dr : Int := (to_.1 : Int) - (fr.1 : Int)
  let dc : Int := (to_.2 : Int) - (fr.2 : Int)
  let step_r : Int := if dr = 0 then 0 else if dr > 0 then 1 else -1
  let step_c : Int := if dc = 0 then 0 else if dc > 0 then 1 else -1
  clear_path_go b (to_.1 : Int) (to_.2 : Int) step_r step_c
    ((fr.1 : Int) + step_r) ((fr.2 : Int) + step_c) 64

/-- `direction` local of `_validate_pawn_move`: white moves toward row 0. -/
def direction (c : Color) : Int :=
  match c with
  | .white => -1
  | .black => 1

/-- `start_row` local of `_validate_pawn_move`. -/
def start_row (c : Color) : Nat :=
  match c with
  | .white => 6
  | .black => 1

/-- `ChessGame._validate_pawn_move` (engine.py lines 249-292). -/
def validate_pawn_move (b : Board) (piece : Piece) (fr to_ : Nat × Nat)
    (dr dc : Int) (capture : Bool) (promotion : Option String) :
    Except ChessError Unit :=
  let dir := direction piece.color
  let startRow := start_row piece.color
  -- promotion is not None and (to[0] not in (0, 7))
  if promotion.isSome ∧ ¬(to_.1 = 0 ∨ to_.1 = 7) then
    .error .promotionNotAllowed
  else if capture then
    if dr ≠ dir ∨ dc.natAbs ≠ 1 then .error .illegalPawnCapture
    else .ok ()
  else if dc ≠ 0 then
    .error .illegalPawnMove
  else if dr = dir then
    if (getCell b to_.1 to_.2).isSome then .error .pawnBlocked
    else .ok ()
  else if fr.1 = startRow ∧ dr = 2 * dir then
    -- intermediate = (fr[0] + direction, fr[1])
    if (getCellI b ((fr.1 : Int) + dir) (fr.2 : Int)).isSome then .error .pawnBlocked
    else if (getCell b to_.1 to_.2).isSome then .error .pawnBlocked
    else .ok ()
  else
    .error .illegalPawnMove

/-- `ChessGame._validate_piece_move` (engine.py lines 199-247).  The final
`Unknown piece type` raise of the source is unreachable here because
`PieceType` is a closed enumeration. -/
def validate_piece_move (b : Board) (piece : Piece) (fr to_ : Nat × Nat)
    (capture : Bool) (promotion : Option String) : Except ChessError Unit :=
  let dr : Int := (to_.1 : Int) - (fr.1 : Int)
  let dc : Int := (to_.2 : Int) - (fr.2 : Int)
  match piece.type with
  | .pawn => validate_pawn_move b piece fr to_ dr dc capture promotion
  | .knight =>
    if ¬((dr.natAbs, dc.natAbs) = (1, 2) ∨ (dr.natAbs, dc.natAbs) = (2, 1)) then
      .error .illegalKnightMove
    else .ok ()
  | .bishop =>
    if dr.natAbs ≠ dc.natAbs ∨ dr = 0 then .error .illegalBishopMove
    else require_clear_path b fr to_
  | .rook =>
    if ¬(dr = 0 ∨ dc = 0) then .error .illegalRookMove
    else if dr = 0 ∧ dc = 0 then .error .illegalRookMove
    else require_clear_path b fr to_
  | .queen =>
    let is_diag := dr.natAbs = dc.natAbs ∧ dr ≠ 0
    -- (dr == 0) != (dc == 0), i.e. exclusive or
    let is_straight := Xor' (dr = 0) (dc = 0)
    if ¬(is_diag ∨ is_straight) then .error .illegalQueenMove
    else require_clear_path b fr to_
  | .king =>
    if max dr.natAbs dc.natAbs ≠ 1 then .error .illegalKingMove
    else .ok ()

/-- `ChessGame.apply_move` (engine.py lines 114-177).  Returns the result of
the call together with the state as the caller observes it afterwards: on
every `raise` the state reached at that point (only the `invalidPromotion`
raise happens after a board write). -/
def apply_move (g : GameState) (from_sq to_sq : String)
    (promotion : Option String) : Except ChessError MoveRecord × GameState :=
  if g.game_status ≠ .in_progress then (.error .gameNotInProgress, g)
  else if from_sq = to_sq then (.error .sameSquare, g)
  else
    match algebraic_to_index from_sq with
    | .error e => (.error e, g)
    | .ok fr =>
      match algebraic_to_index to_sq with
      | .error e => (.error e, g)
      | .ok to_ =>
        match getCell g.board fr.1 fr.2 with
        | none => (.error (.emptySource from_sq), g)
        | some piece =>
          if piece.color ≠ g.current_turn then
            (.error (.wrongTurn g.current_turn), g)
          else
            let target := getCell g.board to_.1 to_.2
            -- target is not None and target.color == piece.color
            if (match target with
                | some t => t.color == piece.color
                | none => false) then
              (.error .friendlyCapture, g)
            else
              let capture := target.isSome
              match validate_piece_move g.board piece fr to_ capture promotion with
              | .error e => (.error e, g)
              | .ok _ =>
                -- Execute move
                let b1 := setCell (setCell g.board to_.1 to_.2 (some piece)) fr.1 fr.2 none
                -- Apply promotion (only for pawn reaching last rank)
                if piece.type = .pawn ∧ (to_.1 = 0 ∨ to_.1 = 7) then
                  -- prom = (promotion or "q").lower(); "" is falsy in Python
                  let prom := pyLowerStr
                    (match promotion with
                     | none => "q"
                     | some s => if s = "" then "q" else s)
                  if ¬(prom = "q" ∨ prom = "r" ∨ prom = "b" ∨ prom = "n") then
                    (.error .invalidPromotion, { g with board := b1 })
                  else
                    let new_type : PieceType :=
                      if prom = "q" then .queen
                      else if prom = "r" then .rook
                      else if prom = "b" then .bishop
                      else .knight
                    let b2 := setCell b1 to_.1 to_.2 (some { type := new_type, color := piece.color })
                    let record : MoveRecord :=
                      { moveNumber := g.history.length / 2 + 1
                        color := piece.color
                        from_square := from_sq
                        to_square := to_sq
                        capture := capture
                        promotion := some prom
                        piece := piece }
                    (.ok record,
                      { g with board := b2, history := g.history ++ [record],
                               current_turn := if g.current_turn = .white then .black else .white })
                else
                  let record : MoveRecord :=
                    { moveNumber := g.history.length / 2 + 1
                      color := piece.color
                      from_square := from_sq
                      to_square := to_sq
                      capture := capture
                      promotion := none
                      piece := piece }
                  (.ok record,
                    { g with board := b1, history := g.history ++ [record],
                             current_turn := if g.current_turn = .white then .black else .white })

/-- Number of occupied cells of a board. -/
def countPieces (b : Board) : Nat :=
  (b.map (fun row => (row.filterMap id).length)).sum

/-- The standard initial chess position, written out literally (spec section
4.3: back rank order rook, knight, bishop, queen, king, bishop, knight, rook
for both colors, full pawn rows). -/
def standard_board_spec : Board :=
  [ [some ⟨.rook, .black⟩, some ⟨.knight, .black⟩, some ⟨.bishop, .black⟩,
     some ⟨.queen, .black⟩, some ⟨.king, .black⟩, some ⟨.bishop, .black⟩,
     some ⟨.knight, .black⟩, some ⟨.rook, .black⟩],
    [some ⟨.pawn, .black⟩, some ⟨.pawn, .black⟩, some ⟨.pawn, .black⟩,
     some ⟨.pawn, .black⟩, some ⟨.pawn, .black⟩, some ⟨.pawn, .black⟩,
     some ⟨.pawn, .black⟩, some ⟨.pawn, .black⟩],
    [none, none, none, none, none, none, none, none],
    [none, none, none, none, none, none, none, none],
    [none, none, none, none, none, none, none, none],
    [none, none, none, none, none, none, none, none],
    [some ⟨.pawn, .white⟩, some ⟨.pawn, .white⟩, some ⟨.pawn, .white⟩,
     some ⟨.pawn, .white⟩, some ⟨.pawn, .white⟩, some ⟨.pawn, .white⟩,
     some ⟨.pawn, .white⟩, some ⟨.pawn, .white⟩],
    [some ⟨.rook, .white⟩, some ⟨.knight, .white⟩, some ⟨.bishop, .white⟩,
     some ⟨.queen, .white⟩, some ⟨.king, .white⟩, some ⟨.bishop, .white⟩,
     some ⟨.knight, .white⟩, some ⟨.rook, .white⟩] ]

/-- The cells strictly between `fr` and `to_` along the move's single
straight or diagonal line, in the order the clear-path loop visits them. -/
def between_cells (fr to_ : Nat × Nat) : List (Int × Int) :=
  let dr : Int := (to_.1 : Int) - (fr.1 : Int)
  let dc : Int := (to_.2 : Int) - (fr.2 : Int)
  let step_r : Int := if dr = 0 then 0 else if dr > 0 then 1 else -1
  let step_c : Int := if dc = 0 then 0 else if dc > 0 then 1 else -1
  (List.range (max dr.natAbs dc.natAbs - 1)).map
    (fun i => ((fr.1 : Int) + ((i : Nat) + 1 : Nat) * step_r,
               (fr.2 : Int) + ((i : Nat) + 1 : Nat) * step_c))

/-- "Clear path": every cell strictly between `fr` and `to_` is unoccupied. -/
def path_clear (b : Board) (fr to_ : Nat × Nat) : Prop :=
  ∀ p ∈ between_cells fr to_, getCellI b p.1 p.2 = none

instance path_clear_decidable (b : Board) (fr to_ : Nat × Nat) :
    Decidable (path_clear b fr to_) :=
  inferInstanceAs (Decidable (∀ p ∈ between_cells fr to_, getCellI b p.1 p.2 = none))

/-- `fr` and `to_` are distinct squares on one row, one column or one
diagonal: the precondition every slider-pattern check establishes before the
clear-path loop runs. -/
def aligned (fr to_ : Nat × Nat) : Prop :=
  fr ≠ to_ ∧
    (fr.1 = to_.1 ∨ fr.2 = to_.2 ∨
      ((to_.1 : Int) - fr.1).natAbs = ((to_.2 : Int) - fr.2).natAbs)

/-- Structural well-formedness of a board: 8 rows of 8 cells. -/
def boardWF (b : Board) : Prop :=
  b.length = 8 ∧ ∀ row ∈ b, row.length = 8

/-- A valid algebraic square string: two characters, file letter a-h
(case-insensitive), rank digit 1-8. -/
def valid_square (s : String) : Prop :=
  match s.data with
  | [f, r] => ('a' ≤ pyLowerChar f ∧ pyLowerChar f ≤ 'h') ∧ ('1' ≤ r ∧ r ≤ '8')
  | _ => False

instance valid_square_decidable (s : String) : Decidable (valid_square s) :=
  match hd : s.data with
  | [] => .isFalse (by unfold valid_square; rw [hd]; exact id)
  | [_] => .isFalse (by unfold valid_square; rw [hd]; exact id)
  | [f, r] =>
    if h : ('a' ≤ pyLowerChar f ∧ pyLowerChar f ≤ 'h') ∧ ('1' ≤ r ∧ r ≤ '8') then
      .isTrue (by unfold valid_square; rw [hd]; exact h)
    else
      .isFalse (by unfold valid_square; rw [hd]; exact h)
  | _ :: _ :: _ :: _ => .isFalse (by unfold valid_square; rw [hd]; exact id)

/-- A position with a single white pawn on a7, white to move. -/
def testPawnState : GameState :=
  { board := setCell emptyBoard 1 0 (some { type := .pawn, color := .white })
    current_turn := .white, game_status := .in_progress, history := [] }

/-- The state `apply_move testPawnState "a7" "a8" (promotion := "x")` leaves
behind when it raises `invalidPromotion`: the pawn has already been moved. -/
def testPawnStateMoved : GameState :=
  { testPawnState with
      board := setCell (setCell testPawnState.board 0 0
        (some { type := .pawn, color := .white })) 1 0 none }

/-- A position with a single white pawn on e5 (off its start row), white to
move. -/
def doubleStepState : GameState :=
  { board := setCell emptyBoard 3 4 (some { type := .pawn, color := .white })
    current_turn := .white, game_status := .in_progress, history := [] }

/-- The record returned by `apply_move testPawnState "a7" "a8"` (no
promotion code). -/
def promoRec : MoveRecord :=
  { moveNumber := 1, color := .white, from_square := "a7", to_square := "a8",
    capture := false, promotion := some "q",
    piece := { type := .pawn, color := .white } }

/-- The state after `apply_move testPawnState "a7" "a8"` (no promotion
code). -/
def promoState : GameState :=
  { board := setCell (setCell (setCell testPawnState.board 0 0
      (some { type := PieceType.pawn, color := Color.white })) 1 0 none) 0 0
      (some { type := PieceType.queen, color := Color.white }),
    current_turn := .black, game_status := .in_progress, history := [promoRec] }

/-! ## Supporting lemmas -/

lemma status_eq (g : GameState) : g.game_status = GameStatus.in_progress := by
  cases g.game_status
  rfl

lemma char_le_iff {a b : Char} : a ≤ b ↔ a.toNat ≤ b.toNat := Iff.rfl

lemma char_lt_iff {a b : Char} : a < b ↔ a.toNat < b.toNat := Iff.rfl

lemma roundtrip_fin : ∀ r c : Fin 8, ((index_to_algebraic (r.val, c.val)).bind algebraic_to_index) = .ok (r.val, c.val) := by decide

lemma cell_shift (x s : Int) (m : Nat) :
    x + ((m : Nat) + 1 : Nat) * s = (x + s) + (m : Int) * s := by
  push_cast
  ring

lemma sign_step_mul (d : Int) :
    (d.natAbs : Int) * (if d = 0 then 0 else if d > 0 then 1 else -1) = d := by
  split_ifs <;> omega

lemma step_eq_zero_iff (d : Int) :
    (if d = 0 then (0 : Int) else if d > 0 then 1 else -1) = 0 ↔ d = 0 := by
  split_ifs with h1 h2 <;> simp_all

lemma clear_path_go_spec (b : Board) (stepR stepC : Int)
    (hstep : ¬(stepR = 0 ∧ stepC = 0)) :
    ∀ (k : Nat) (r c : Int) (fuel : Nat), k < fuel →
    clear_path_go b (r + k * stepR) (c + k * stepC) stepR stepC r c fuel =
      if (∀ i < k, getCellI b (r + i * stepR) (c + i * stepC) = none)
      then .ok () else .error .pathBlocked := by
  intro k
  induction k with
  | zero =>
    intro r c fuel hf
    match fuel, hf with
    | f + 1, _ =>
      simp only [Nat.cast_zero, zero_mul, add_zero, clear_path_go]
      rw [if_pos, if_pos]
      · intro i hi
        omega
      · constructor <;> simp
  | succ k ih =>
    intro r c fuel hf
    match fuel, hf with
    | f + 1, hf =>
      have hkf : k < f := by omega
      simp only [clear_path_go]
      have hne : ¬(r = r + (↑(k + 1) : Int) * stepR ∧ c = c + (↑(k + 1) : Int) * stepC) := by
        rintro ⟨h1, h2⟩
        apply hstep
        refine ⟨?_, ?_⟩
        · have hz : ((k : Int) + 1) * stepR = 0 := by push_cast at h1; linarith
          rcases mul_eq_zero.mp hz with h | h
          · omega
          · exact h
        · have hz : ((k : Int) + 1) * stepC = 0 := by push_cast at h2; linarith
          rcases mul_eq_zero.mp hz with h | h
          · omega
          · exact h
      rw [if_neg hne]
      by_cases hocc : (getCellI b r c).isSome = true
      · rw [if_pos hocc, if_neg]
        intro hall
        have h0 := hall 0 (by omega)
        simp only [Nat.cast_zero, zero_mul, add_zero] at h0
        rw [h0] at hocc
        simp at hocc
      · rw [if_neg hocc]
        have hnone : getCellI b r c = none := Option.not_isSome_iff_eq_none.mp hocc
        rw [cell_shift r stepR k, cell_shift c stepC k, ih (r + stepR) (c + stepC) f hkf]
        apply if_congr _ rfl rfl
        constructor
        · intro h i hi
          match i with
          | 0 =>
            simpa using hnone
          | j + 1 =>
            rw [cell_shift r stepR j, cell_shift c stepC j]
            exact h j (by omega)
        · intro h i hi
          have hx := h (i + 1) (by omega)
          rw [cell_shift r stepR i, cell_shift c stepC i] at hx
          exact hx

lemma require_clear_path_spec (b : Board) (fr to_ : Nat × Nat)
    (hfr1 : fr.1 < 8) (hfr2 : fr.2 < 8) (hto1 : to_.1 < 8) (hto2 : to_.2 < 8)
    (ha : aligned fr to_) :
    require_clear_path b fr to_ =
      if path_clear b fr to_ then .ok () else .error .pathBlocked := by
  obtain ⟨hne, hal⟩ := ha
  simp only [require_clear_path]
  set sr := (if ((to_.1 : Int) - (fr.1 : Int) = 0) then (0 : Int)
             else if ((to_.1 : Int) - (fr.1 : Int) > 0) then 1 else -1) with hsr
  set sc := (if ((to_.2 : Int) - (fr.2 : Int) = 0) then (0 : Int)
             else if ((to_.2 : Int) - (fr.2 : Int) > 0) then 1 else -1) with hsc
  set m := max ((to_.1 : Int) - (fr.1 : Int)).natAbs ((to_.2 : Int) - (fr.2 : Int)).natAbs with hm
  have hdz : ¬(((to_.1 : Int) - (fr.1 : Int)) = 0 ∧ ((to_.2 : Int) - (fr.2 : Int)) = 0) := by
    rintro ⟨h1, h2⟩
    apply hne
    have e1 : fr.1 = to_.1 := by omega
    have e2 : fr.2 = to_.2 := by omega
    exact Prod.ext e1 e2
  have hstep : ¬(sr = 0 ∧ sc = 0) := by
    rw [hsr, hsc, step_eq_zero_iff, step_eq_zero_iff]
    exact hdz
  have hm1 : 1 ≤ m := by
    rw [hm]
    rcases Decidable.em (((to_.1 : Int) - (fr.1 : Int)) = 0) with h | h
    · have h2 : ¬(((to_.2 : Int) - (fr.2 : Int)) = 0) := fun hc => hdz ⟨h, hc⟩
      have : 1 ≤ ((to_.2 : Int) - (fr.2 : Int)).natAbs := by omega
      omega
    · have : 1 ≤ ((to_.1 : Int) - (fr.1 : Int)).natAbs := by omega
      omega
  have hm8 : m ≤ 7 := by
    rw [hm]
    have : ((to_.1 : Int) - (fr.1 : Int)).natAbs ≤ 7 := by omega
    have : ((to_.2 : Int) - (fr.2 : Int)).natAbs ≤ 7 := by omega
    omega
  have hmulr : (m : Int) * sr = (to_.1 : Int) - (fr.1 : Int) := by
    rcases hal with h | h | h
    · have hz : ((to_.1 : Int) - (fr.1 : Int)) = 0 := by omega
      rw [hsr, if_pos hz]
      omega
    · have hz : ((to_.2 : Int) - (fr.2 : Int)) = 0 := by omega
      have hmr : m = ((to_.1 : Int) - (fr.1 : Int)).natAbs := by rw [hm]; omega
      rw [hmr, hsr]
      exact sign_step_mul _
    · have hmr : m = ((to_.1 : Int) - (fr.1 : Int)).natAbs := by rw [hm]; omega
      rw [hmr, hsr]
      exact sign_step_mul _
  have hmulc : (m : Int) * sc = (to_.2 : Int) - (fr.2 : Int) := by
    rcases hal with h | h | h
    · have hz : ((to_.1 : Int) - (fr.1 : Int)) = 0 := by omega
      have hmr : m = ((to_.2 : Int) - (fr.2 : Int)).natAbs := by rw [hm]; omega
      rw [hmr, hsc]
      exact sign_step_mul _
    · have hz : ((to_.2 : Int) - (fr.2 : Int)) = 0 := by omega
      rw [hsc, if_pos hz]
      omega
    · have hmr : m = ((to_.2 : Int) - (fr.2 : Int)).natAbs := by rw [hm]; omega
      rw [hmr, hsc]
      exact sign_step_mul _
  have htoR : (to_.1 : Int) = ((fr.1 : Int) + sr) + ((m - 1 : Nat) : Int) * sr := by
    have e : ((m - 1 : Nat) : Int) = (m : Int) - 1 := by omega
    rw [e]
    have e2 : ((fr.1 : Int) + sr) + ((m : Int) - 1) * sr = (fr.1 : Int) + (m : Int) * sr := by
      ring
    rw [e2, hmulr]
    ring
  have htoC : (to_.2 : Int) = ((fr.2 : Int) + sc) + ((m - 1 : Nat) : Int) * sc := by
    have e : ((m - 1 : Nat) : Int) = (m : Int) - 1 := by omega
    rw [e]
    have e2 : ((fr.2 : Int) + sc) + ((m : Int) - 1) * sc = (fr.2 : Int) + (m : Int) * sc := by
      ring
    rw [e2, hmulc]
    ring
  rw [htoR, htoC, clear_path_go_spec b sr sc hstep (m - 1) ((fr.1 : Int) + sr) ((fr.2 : Int) + sc) 64 (by omega)]
  apply if_congr _ rfl rfl
  rw [path_clear]
  constructor
  · intro h p hp
    rw [between_cells] at hp
    simp only [List.mem_map, List.mem_range] at hp
    obtain ⟨i, hi, hpe⟩ := hp
    rw [← hm] at hi
    rw [← hpe]
    have hx := h i hi
    rw [cell_shift ((fr.1 : Int)) sr i, cell_shift ((fr.2 : Int)) sc i]
    exact hx
  · intro h i hi
    have hx := h ((fr.1 : Int) + ((i : Nat) + 1 : Nat) * sr, (fr.2 : Int) + ((i : Nat) + 1 : Nat) * sc)
    rw [between_cells] at hx
    simp only [List.mem_map, List.mem_range] at hx
    rw [← hsr, ← hsc, ← hm] at hx
    have hx2 := hx ⟨i, hi, rfl⟩
    rw [cell_shift ((fr.1 : Int)) sr i, cell_shift ((fr.2 : Int)) sc i] at hx2
    exact hx2

lemma between_cells_length (fr to_ : Nat × Nat) :
    (between_cells fr to_).length =
      max ((to_.1 : Int) - (fr.1 : Int)).natAbs ((to_.2 : Int) - (fr.2 : Int)).natAbs - 1 := by
  simp [between_cells]

lemma between_cells_bounds (fr to_ : Nat × Nat)
    (hfr1 : fr.1 < 8) (hfr2 : fr.2 < 8) (hto1 : to_.1 < 8) (hto2 : to_.2 < 8)
    (ha : aligned fr to_) :
    ∀ p ∈ between_cells fr to_, 0 ≤ p.1 ∧ p.1 < 8 ∧ 0 ≤ p.2 ∧ p.2 < 8 := by
  obtain ⟨hne, hal⟩ := ha
  set sr := (if ((to_.1 : Int) - (fr.1 : Int) = 0) then (0 : Int)
             else if ((to_.1 : Int) - (fr.1 : Int) > 0) then 1 else -1) with hsr
  set sc := (if ((to_.2 : Int) - (fr.2 : Int) = 0) then (0 : Int)
             else if ((to_.2 : Int) - (fr.2 : Int) > 0) then 1 else -1) with hsc
  set m := max ((to_.1 : Int) - (fr.1 : Int)).natAbs ((to_.2 : Int) - (fr.2 : Int)).natAbs with hm
  have hdz : ¬(((to_.1 : Int) - (fr.1 : Int)) = 0 ∧ ((to_.2 : Int) - (fr.2 : Int)) = 0) := by
    rintro ⟨h1, h2⟩
    apply hne
    have e1 : fr.1 = to_.1 := by omega
    have e2 : fr.2 = to_.2 := by omega
    exact Prod.ext e1 e2
  have hmulr : (m : Int) * sr = (to_.1 : Int) - (fr.1 : Int) := by
    rcases hal with h | h | h
    · have hz : ((to_.1 : Int) - (fr.1 : Int)) = 0 := by omega
      rw [hsr, if_pos hz]
      omega
    · have hz : ((to_.2 : Int) - (fr.2 : Int)) = 0 := by omega
      have hmr : m = ((to_.1 : Int) - (fr.1 : Int)).natAbs := by rw [hm]; omega
      rw [hmr, hsr]
      exact sign_step_mul _
    · have hmr : m = ((to_.1 : Int) - (fr.1 : Int)).natAbs := by rw [hm]; omega
      rw [hmr, hsr]
      exact sign_step_mul _
  have hmulc : (m : Int) * sc = (to_.2 : Int) - (fr.2 : Int) := by
    rcases hal with h | h | h
    · have hz : ((to_.1 : Int) - (fr.1 : Int)) = 0 := by omega
      have hmr : m = ((to_.2 : Int) - (fr.2 : Int)).natAbs := by rw [hm]; omega
      rw [hmr, hsc]
      exact sign_step_mul _
    · have hz : ((to_.2 : Int) - (fr.2 : Int)) = 0 := by omega
      rw [hsc, if_pos hz]
      omega
    · have hmr : m = ((to_.2 : Int) - (fr.2 : Int)).natAbs := by rw [hm]; omega
      rw [hmr, hsc]
      exact sign_step_mul _
  have hsr3 : sr = 0 ∨ sr = 1 ∨ sr = -1 := by
    rw [hsr]
    split_ifs <;> simp
  have hsc3 : sc = 0 ∨ sc = 1 ∨ sc = -1 := by
    rw [hsc]
    split_ifs <;> simp
  intro p hp
  rw [between_cells] at hp
  simp only [List.mem_map, List.mem_range] at hp
  obtain ⟨i, hi, hpe⟩ := hp
  rw [← hm] at hi
  rw [← hpe]
  dsimp only
  rw [← hsr, ← hsc]
  rcases hsr3 with h | h | h <;> rcases hsc3 with h2 | h2 | h2 <;>
    (rw [h] at hmulr; rw [h2] at hmulc; rw [h, h2]; push_cast at hmulr hmulc ⊢; omega)

lemma apply_move_same_square (g : GameState) (s : String) (p : Option String) :
    apply_move g s s p = (.error .sameSquare, g) := by
  have hst : g.game_status = GameStatus.in_progress := status_eq g
  simp [apply_move, hst]

lemma a2i_error_cases (s : String) (e : ChessError)
    (h : algebraic_to_index s = .error e) :
    e = .invalidSquareForm ∨ e = .invalidFile ∨ e = .invalidRank := by
  unfold algebraic_to_index at h
  split at h
  · dsimp only at h
    split_ifs at h <;> simp only [Except.error.injEq] at h
    · right
      left
      exact h.symm
    · right
      right
      exact h.symm
  · simp only [Except.error.injEq] at h
    left
    exact h.symm

lemma a2i_ok_bounds (s : String) (fr : Nat × Nat)
    (h : algebraic_to_index s = .ok fr) : fr.1 < 8 ∧ fr.2 < 8 := by
  unfold algebraic_to_index at h
  split at h
  case h_1 f r heq =>
    dsimp only at h
    split_ifs at h with h1 h2
    simp only [Except.ok.injEq] at h
    subst h
    rw [not_or, not_lt, not_lt] at h1 h2
    have hf1 : 97 ≤ (pyLowerChar f).toNat := char_le_iff.mp h1.1
    have hf2 : (pyLowerChar f).toNat ≤ 104 := char_le_iff.mp h1.2
    have hr1 : 49 ≤ r.toNat := char_le_iff.mp h2.1
    have hr2 : r.toNat ≤ 56 := char_le_iff.mp h2.2
    constructor
    · show 8 - (r.toNat - '0'.toNat) < 8
      show 8 - (r.toNat - 48) < 8
      omega
    · show (pyLowerChar f).toNat - 'a'.toNat < 8
      show (pyLowerChar f).toNat - 97 < 8
      omega
  case h_2 =>
    exact Except.noConfusion h

lemma clear_path_go_cases (b : Board) (toR toC sR sC : Int) :
    ∀ (fuel : Nat) (r c : Int),
      clear_path_go b toR toC sR sC r c fuel = .ok () ∨
      clear_path_go b toR toC sR sC r c fuel = .error .pathBlocked ∨
      clear_path_go b toR toC sR sC r c fuel = .error .nonterminating := by
  intro fuel
  induction fuel with
  | zero =>
    intro r c
    right
    right
    rfl
  | succ f ih =>
    intro r c
    simp only [clear_path_go]
    split_ifs
    · left
      rfl
    · right
      left
      rfl
    · exact ih (r + sR) (c + sC)

lemma require_clear_path_cases (b : Board) (fr to_ : Nat × Nat) :
    require_clear_path b fr to_ = .ok () ∨
    require_clear_path b fr to_ = .error .pathBlocked ∨
    require_clear_path b fr to_ = .error .nonterminating := by
  simp only [require_clear_path]
  exact clear_path_go_cases b _ _ _ _ 64 _ _

lemma validate_nonpawn_promo_free (b : Board) (piece : Piece) (fr to_ : Nat × Nat)
    (cap : Bool) (pr : Option String) (hpt : piece.type ≠ PieceType.pawn) :
    validate_piece_move b piece fr to_ cap pr =
      validate_piece_move b piece fr to_ cap none := by
  cases h : piece.type <;> simp_all [validate_piece_move]

lemma validate_nonpawn_error_cases (b : Board) (piece : Piece) (fr to_ : Nat × Nat)
    (cap : Bool) (pr : Option String) (e : ChessError)
    (hpt : piece.type ≠ PieceType.pawn)
    (h : validate_piece_move b piece fr to_ cap pr = .error e) :
    e ≠ .promotionNotAllowed ∧ e ≠ .invalidPromotion := by
  cases hty : piece.type <;> simp only [validate_piece_move, hty] at h
  case pawn => exact absurd hty hpt
  all_goals
    split_ifs at h <;>
      first
      | (simp only [Except.error.injEq] at h
         subst h
         exact ⟨by simp, by simp⟩)
      | (exact Except.noConfusion h)
      | (rcases require_clear_path_cases b fr to_ with hc | hc | hc <;> rw [hc] at h <;>
          first
          | (exact Except.noConfusion h)
          | (simp only [Except.error.injEq] at h
             subst h
             exact ⟨by simp, by simp⟩))

lemma error_leaf (X : ChessError) (g' : GameState)
    (h1 : X ≠ .promotionNotAllowed) (h2 : X ≠ .invalidPromotion) :
    (∀ e, ((Except.error X : Except ChessError MoveRecord), g').1 = .error e →
        e ≠ ChessError.promotionNotAllowed ∧ e ≠ ChessError.invalidPromotion) ∧
    (∀ rec, ((Except.error X : Except ChessError MoveRecord), g').1 = .ok rec →
        rec.promotion = none) := by
  refine ⟨fun e he => ?_, fun rec hrec => ?_⟩
  · have hx : (Except.error X : Except ChessError MoveRecord) = Except.error e := he
    simp only [Except.error.injEq] at hx
    subst hx
    exact ⟨h1, h2⟩
  · have hx : (Except.error X : Except ChessError MoveRecord) = Except.ok rec := hrec
    exact Except.noConfusion hx

lemma boardWF_getD_mem (b : Board) (r : Nat) (hr : r < b.length) :
    b.getD r [] ∈ b := by
  rw [List.getD_eq_getElem?_getD, List.getElem?_eq_getElem hr]
  exact List.getElem_mem hr

lemma boardWF_row_length (b : Board) (r : Nat) (h : boardWF b) (hr : r < 8) :
    (b.getD r []).length = 8 := by
  have h1 := h.1
  exact h.2 _ (boardWF_getD_mem b r (by omega))

lemma boardWF_setCell (b : Board) (r c : Nat) (p : Option Piece)
    (h : boardWF b) (hr : r < 8) :
    boardWF (setCell b r c p) := by
  obtain ⟨h1, h2⟩ := h
  constructor
  · simpa [setCell] using h1
  · intro row hrow
    unfold setCell at hrow
    rcases List.mem_or_eq_of_mem_set hrow with hmem | heq
    · exact h2 row hmem
    · subst heq
      rw [List.length_set]
      exact h2 _ (boardWF_getD_mem b r (by omega))

lemma getCell_setCell_self (b : Board) (r c : Nat) (p : Option Piece)
    (h : boardWF b) (hr : r < 8) (hc : c < 8) :
    getCell (setCell b r c p) r c = p := by
  have h1 := h.1
  unfold getCell setCell
  rw [List.getD_eq_getElem?_getD (b.set r ((b.getD r []).set c p)) r [],
      List.getElem?_set_eq_of_lt _ (show r < b.length by omega)]
  simp only [Option.getD_some]
  rw [List.getD_eq_getElem?_getD,
      List.getElem?_set_eq_of_lt _ (show c < (b.getD r []).length by
        rw [boardWF_row_length b r h hr]
        omega)]
  simp

lemma fr_ne_to_of_dr (fr to_ : Nat × Nat) (h : (to_.1 : Int) - fr.1 ≠ 0) : fr ≠ to_ := by
  intro he
  subst he
  simp at h

lemma fr_ne_to_of_dc (fr to_ : Nat × Nat) (h : (to_.2 : Int) - fr.2 ≠ 0) : fr ≠ to_ := by
  intro he
  subst he
  simp at h

lemma bishop_spec (b : Board) (piece : Piece) (fr to_ : Nat × Nat)
    (cap : Bool) (promo : Option String)
    (hfr1 : fr.1 < 8) (hfr2 : fr.2 < 8) (hto1 : to_.1 < 8) (hto2 : to_.2 < 8)
    (hty : piece.type = PieceType.bishop)
    (hdiag : ((to_.1 : Int) - fr.1).natAbs = ((to_.2 : Int) - fr.2).natAbs)
    (hdr : (to_.1 : Int) - fr.1 ≠ 0) :
    validate_piece_move b piece fr to_ cap promo =
      if path_clear b fr to_ then .ok () else .error .pathBlocked := by
  simp only [validate_piece_move, hty]
  rw [if_neg (by rintro (hc | hc) <;> [exact hc hdiag; exact hdr hc])]
  exact require_clear_path_spec b fr to_ hfr1 hfr2 hto1 hto2
    ⟨fr_ne_to_of_dr fr to_ hdr, Or.inr (Or.inr hdiag)⟩

lemma rook_spec (b : Board) (piece : Piece) (fr to_ : Nat × Nat)
    (cap : Bool) (promo : Option String)
    (hfr1 : fr.1 < 8) (hfr2 : fr.2 < 8) (hto1 : to_.1 < 8) (hto2 : to_.2 < 8)
    (hty : piece.type = PieceType.rook)
    (hpat : (to_.1 : Int) - fr.1 = 0 ∨ (to_.2 : Int) - fr.2 = 0)
    (hnb : ¬((to_.1 : Int) - fr.1 = 0 ∧ (to_.2 : Int) - fr.2 = 0)) :
    validate_piece_move b piece fr to_ cap promo =
      if path_clear b fr to_ then .ok () else .error .pathBlocked := by
  simp only [validate_piece_move, hty]
  rw [if_neg (not_not.mpr hpat), if_neg hnb]
  have hne : fr ≠ to_ := by
    rcases hpat with h | h
    · exact fr_ne_to_of_dc fr to_ (fun hc => hnb ⟨h, hc⟩)
    · exact fr_ne_to_of_dr fr to_ (fun hc => hnb ⟨hc, h⟩)
  refine require_clear_path_spec b fr to_ hfr1 hfr2 hto1 hto2 ⟨hne, ?_⟩
  rcases hpat with h | h
  · left
    omega
  · right
    left
    omega

lemma queen_spec (b : Board) (piece : Piece) (fr to_ : Nat × Nat)
    (cap : Bool) (promo : Option String)
    (hfr1 : fr.1 < 8) (hfr2 : fr.2 < 8) (hto1 : to_.1 < 8) (hto2 : to_.2 < 8)
    (hty : piece.type = PieceType.queen)
    (hpat : (((to_.1 : Int) - fr.1).natAbs = ((to_.2 : Int) - fr.2).natAbs ∧
              (to_.1 : Int) - fr.1 ≠ 0) ∨
            Xor' ((to_.1 : Int) - fr.1 = 0) ((to_.2 : Int) - fr.2 = 0)) :
    validate_piece_move b piece fr to_ cap promo =
      if path_clear b fr to_ then .ok () else .error .pathBlocked := by
  simp only [validate_piece_move, hty]
  rw [if_neg (not_not.mpr hpat)]
  have hne : fr ≠ to_ := by
    rcases hpat with ⟨hd, hz⟩ | hx
    · exact fr_ne_to_of_dr fr to_ hz
    · rcases hx with ⟨h1, h2⟩ | ⟨h1, h2⟩
      · exact fr_ne_to_of_dc fr to_ h2
      · exact fr_ne_to_of_dr fr to_ h2
  refine require_clear_path_spec b fr to_ hfr1 hfr2 hto1 hto2 ⟨hne, ?_⟩
  rcases hpat with ⟨hd, hz⟩ | hx
  · exact Or.inr (Or.inr hd)
  · rcases hx with ⟨h1, h2⟩ | ⟨h1, h2⟩
    · left
      omega
    · right
      left
      omega

lemma knight_king_no_path (b b' : Board) (piece : Piece) (fr to_ : Nat × Nat)
    (cap cap' : Bool) (promo promo' : Option String)
    (hty : piece.type = PieceType.knight ∨ piece.type = PieceType.king) :
    validate_piece_move b piece fr to_ cap promo =
      validate_piece_move b' piece fr to_ cap' promo' := by
  rcases hty with h | h <;> simp only [validate_piece_move, h]

/-! ## Claim theorems, counterexamples and witnesses -/

/-- Claim C7: for every valid algebraic square string (two characters, file
a-h case-insensitive, rank 1-8), converting to indices, back to algebraic
form and to indices again gives the same indices as the first conversion
(round-trip stability). -/
theorem C7_square_roundtrip (s : String) (hv : valid_square s) :
    ((algebraic_to_index s).bind fun i =>
      (index_to_algebraic i).bind fun t => algebraic_to_index t) =
    algebraic_to_index s := by
  unfold valid_square at hv
  split at hv
  case _ f r heq =>
    obtain ⟨⟨hf1, hf2⟩, hr1, hr2⟩ := hv
    have hf1n : 97 ≤ (pyLowerChar f).toNat := char_le_iff.mp hf1
    have hf2n : (pyLowerChar f).toNat ≤ 104 := char_le_iff.mp hf2
    have hr1n : 49 ≤ r.toNat := char_le_iff.mp hr1
    have hr2n : r.toNat ≤ 56 := char_le_iff.mp hr2
    simp only [algebraic_to_index, heq]
    rw [if_neg, if_neg]
    · have hrow : 8 - (r.toNat - '0'.toNat) < 8 := by
        show 8 - (r.toNat - 48) < 8
        omega
      have hcol : (pyLowerChar f).toNat - 'a'.toNat < 8 := by
        show (pyLowerChar f).toNat - 97 < 8
        omega
      have := roundtrip_fin ⟨8 - (r.toNat - '0'.toNat), hrow⟩ ⟨(pyLowerChar f).toNat - 'a'.toNat, hcol⟩
      simp only [Except.bind] at this ⊢
      exact this
    · rw [not_or, not_lt, not_lt]
      exact ⟨hr1, hr2⟩
    · rw [not_or, not_lt, not_lt]
      exact ⟨hf1, hf2⟩
  case _ =>
    exact absurd hv (by simp)

/-- Claim C8: from every GameState, `restart` succeeds and afterwards the
board is exactly the standard initial layout with 32 pieces, the turn is
white, the status is `in_progress` and the history is empty; `restart` is
idempotent. -/
theorem C8_restart_standard_position (g : GameState) :
    (restart g).board = standard_board_spec ∧
    countPieces (restart g).board = 32 ∧
    (restart g).current_turn = .white ∧
    (restart g).game_status = .in_progress ∧
    (restart g).history = [] ∧
    restart (restart g) = restart g := by
  have hg : restart g = GAME := rfl
  rw [hg]
  decide

/-- Claim C3: a pawn move carrying an explicit promotion code whose
destination is not on the last rank fails with `promotionNotAllowed`,
whatever the pawn-specific legality of the move would otherwise be — the
check precedes every pawn-specific rule. -/
theorem C3_promotion_not_allowed_precedence (g : GameState) (s t : String) (code : String)
    (fr to_ : Nat × Nat) (piece : Piece)
    (hne : s ≠ t)
    (hs : algebraic_to_index s = .ok fr) (ht : algebraic_to_index t = .ok to_)
    (hpiece : getCell g.board fr.1 fr.2 = some piece)
    (hpt : piece.type = PieceType.pawn)
    (hcol : piece.color = g.current_turn)
    (htgt : ∀ tp, getCell g.board to_.1 to_.2 = some tp → tp.color ≠ piece.color)
    (h0 : to_.1 ≠ 0) (h7 : to_.1 ≠ 7) :
    apply_move g s t (some code) = (.error .promotionNotAllowed, g) := by
  have hg : g.game_status = GameStatus.in_progress := status_eq g
  have hval : ∀ cap : Bool, validate_piece_move g.board piece fr to_ cap (some code) =
      .error .promotionNotAllowed := by
    intro cap
    simp only [validate_piece_move, hpt, validate_pawn_move, Option.isSome_some, true_and]
    rw [if_pos]
    rintro (hc | hc)
    · exact h0 hc
    · exact h7 hc
  simp only [apply_move, hg, hs, ht, ne_eq, not_true_eq_false, if_false, if_neg hne,
    hpiece, hcol, not_false_eq_true]
  cases htarget : getCell g.board to_.1 to_.2 with
  | none =>
    simp [htarget, hval false]
  | some tp =>
    have hne2 : (tp.color == g.current_turn) = false := by
      rw [beq_eq_false_iff_ne]
      have hx := htgt tp htarget
      rw [hcol] at hx
      exact hx
    simp [htarget, hne2, hval true]

/-- Claim C9: for a move of a non-pawn piece, the supplied promotion code is
ignored entirely: the call is identical to the call without a code, it never
fails with `promotionNotAllowed` or `invalidPromotion`, and a successful
MoveRecord carries `promotion = none`. -/
theorem C9_nonpawn_ignores_promotion (g : GameState) (s t : String) (p : Option String)
    (fr : Nat × Nat) (piece : Piece)
    (hs : algebraic_to_index s = .ok fr)
    (hpiece : getCell g.board fr.1 fr.2 = some piece)
    (hpt : piece.type ≠ PieceType.pawn) :
    apply_move g s t p = apply_move g s t none ∧
    (∀ e, (apply_move g s t p).1 = .error e →
        e ≠ ChessError.promotionNotAllowed ∧ e ≠ ChessError.invalidPromotion) ∧
    (∀ rec, (apply_move g s t p).1 = .ok rec → rec.promotion = none) := by
  have hg : g.game_status = GameStatus.in_progress := status_eq g
  by_cases hst : s = t
  · subst hst
    refine ⟨?_, ?_, ?_⟩
    · rw [apply_move_same_square, apply_move_same_square]
    · rw [apply_move_same_square]
      exact (error_leaf _ g (by simp) (by simp)).1
    · rw [apply_move_same_square]
      exact (error_leaf _ g (by simp) (by simp)).2
  · simp only [apply_move, hg, ne_eq, not_true_eq_false, if_false, if_neg hst, hs, hpiece]
    cases hte : algebraic_to_index t with
    | error e2 =>
      have hne1 : e2 ≠ ChessError.promotionNotAllowed := by
        rcases a2i_error_cases t e2 hte with he2 | he2 | he2 <;> subst he2 <;> simp
      have hne2 : e2 ≠ ChessError.invalidPromotion := by
        rcases a2i_error_cases t e2 hte with he2 | he2 | he2 <;> subst he2 <;> simp
      refine ⟨by trivial, ?_, ?_⟩
      · exact (error_leaf _ g hne1 hne2).1
      · exact (error_leaf _ g hne1 hne2).2
    | ok to_ =>
      by_cases hcol : piece.color = g.current_turn
      · simp only [hcol, not_true_eq_false, if_false]
        cases htarget : getCell g.board to_.1 to_.2 with
        | some tp =>
          by_cases hfc : (tp.color == g.current_turn) = true
          · simp only [hfc, if_true]
            refine ⟨by trivial, ?_, ?_⟩
            · exact (error_leaf _ g (by simp) (by simp)).1
            · exact (error_leaf _ g (by simp) (by simp)).2
          · simp only [hfc, if_false, Option.isSome_some]
            rw [validate_nonpawn_promo_free g.board piece fr to_ true p hpt]
            cases hv : validate_piece_move g.board piece fr to_ true none with
            | error e3 =>
              have := validate_nonpawn_error_cases g.board piece fr to_ true none e3 hpt hv
              refine ⟨by trivial, ?_, ?_⟩
              · exact (error_leaf _ g this.1 this.2).1
              · exact (error_leaf _ g this.1 this.2).2
            | ok u =>
              dsimp only
              have hpt2 : (piece.type = PieceType.pawn ∧ (to_.1 = 0 ∨ to_.1 = 7)) = False :=
                eq_false (fun hc => hpt hc.1)
              simp only [hpt2, if_false]
              refine ⟨by trivial, fun e he => ?_, fun rec hrec => ?_⟩
              · exact Except.noConfusion (show Except.ok _ = Except.error e from he)
              · have hx : Except.ok _ = Except.ok rec := hrec
                simp only [Except.ok.injEq] at hx
                subst hx
                rfl
        | none =>
          simp only [Option.isSome_none, if_false]
          rw [validate_nonpawn_promo_free g.board piece fr to_ false p hpt]
          cases hv : validate_piece_move g.board piece fr to_ false none with
          | error e3 =>
            have := validate_nonpawn_error_cases g.board piece fr to_ false none e3 hpt hv
            refine ⟨by trivial, ?_, ?_⟩
            · exact (error_leaf _ g this.1 this.2).1
            · exact (error_leaf _ g this.1 this.2).2
          | ok u =>
            dsimp only
            have hpt2 : (piece.type = PieceType.pawn ∧ (to_.1 = 0 ∨ to_.1 = 7)) = False :=
              eq_false (fun hc => hpt hc.1)
            simp only [hpt2, if_false]
            refine ⟨by trivial, fun e he => ?_, fun rec hrec => ?_⟩
            · exact Except.noConfusion (show Except.ok _ = Except.error e from he)
            · have hx : Except.ok _ = Except.ok rec := hrec
              simp only [Except.ok.injEq] at hx
              subst hx
              rfl
      · simp only [hcol, not_false_eq_true, if_true]
        refine ⟨by trivial, ?_, ?_⟩
        · exact (error_leaf _ g (by simp) (by simp)).1
        · exact (error_leaf _ g (by simp) (by simp)).2

/-- Claim C6: a legal pawn move that reaches the last rank with no promotion
code supplied promotes to a queen of the mover's color; the returned record
has `promotion = some "q"` and its piece snapshot is the pre-promotion
pawn. -/
theorem C6_promotion_default_queen (g : GameState) (s t : String) (fr to_ : Nat × Nat) (c : Color)
    (hwf : boardWF g.board)
    (hs : algebraic_to_index s = .ok fr) (ht : algebraic_to_index t = .ok to_)
    (hpiece : getCell g.board fr.1 fr.2 = some { type := PieceType.pawn, color := c })
    (hlast : to_.1 = 0 ∨ to_.1 = 7)
    (rec : MoveRecord) (g' : GameState)
    (hsucc : apply_move g s t none = (.ok rec, g')) :
    getCell g'.board to_.1 to_.2 = some { type := PieceType.queen, color := c } ∧
    rec.promotion = some "q" ∧
    rec.piece = { type := PieceType.pawn, color := c } := by
  have hg : g.game_status = GameStatus.in_progress := status_eq g
  have hto := a2i_ok_bounds t to_ ht
  have hfr := a2i_ok_bounds s fr hs
  have hq : pyLowerStr "q" = "q" := by decide
  by_cases hst : s = t
  · subst hst
    rw [apply_move_same_square] at hsucc
    simp at hsucc
  simp only [apply_move, hg, ne_eq, not_true_eq_false, if_false, if_neg hst, hs, ht,
    hpiece] at hsucc
  by_cases hcol : c = g.current_turn
  case neg =>
    rw [if_pos (by simp [hcol])] at hsucc
    simp at hsucc
  case pos =>
    rw [if_neg (by simp [hcol])] at hsucc
    cases htarget : getCell g.board to_.1 to_.2 with
    | some tp =>
      simp only [htarget, Option.isSome_some] at hsucc
      by_cases hfc : (tp.color == ({ type := PieceType.pawn, color := c } : Piece).color) = true
      · rw [if_pos hfc] at hsucc
        simp at hsucc
      · rw [if_neg hfc] at hsucc
        cases hv : validate_piece_move g.board { type := PieceType.pawn, color := c } fr to_
            true none with
        | error e =>
          rw [hv] at hsucc
          simp at hsucc
        | ok u =>
          rw [hv] at hsucc
          rw [if_pos (show _ ∧ _ from ⟨by trivial, hlast⟩)] at hsucc
          simp only [hq] at hsucc
          rw [if_neg (by simp)] at hsucc
          simp only [Prod.mk.injEq, Except.ok.injEq, if_pos rfl] at hsucc
          obtain ⟨hrec, hg2⟩ := hsucc
          subst hrec
          subst hg2
          refine ⟨?_, rfl, rfl⟩
          have hwf1 : boardWF (setCell g.board to_.1 to_.2
              (some { type := PieceType.pawn, color := c })) :=
            boardWF_setCell _ _ _ _ hwf (by omega)
          have hwf2 : boardWF (setCell (setCell g.board to_.1 to_.2
              (some { type := PieceType.pawn, color := c })) fr.1 fr.2 none) :=
            boardWF_setCell _ _ _ _ hwf1 (by omega)
          exact getCell_setCell_self _ _ _ _ hwf2 (by omega) (by omega)
    | none =>
      simp only [htarget, Option.isSome_none] at hsucc
      rw [if_neg (by simp)] at hsucc
      cases hv : validate_piece_move g.board { type := PieceType.pawn, color := c } fr to_
          false none with
      | error e =>
        rw [hv] at hsucc
        simp at hsucc
      | ok u =>
        rw [hv] at hsucc
        rw [if_pos (show _ ∧ _ from ⟨by trivial, hlast⟩)] at hsucc
        simp only [hq] at hsucc
        rw [if_neg (by simp)] at hsucc
        simp only [Prod.mk.injEq, Except.ok.injEq, if_pos rfl] at hsucc
        obtain ⟨hrec, hg2⟩ := hsucc
        subst hrec
        subst hg2
        refine ⟨?_, rfl, rfl⟩
        have hwf1 : boardWF (setCell g.board to_.1 to_.2
            (some { type := PieceType.pawn, color := c })) :=
          boardWF_setCell _ _ _ _ hwf (by omega)
        have hwf2 : boardWF (setCell (setCell g.board to_.1 to_.2
            (some { type := PieceType.pawn, color := c })) fr.1 fr.2 none) :=
          boardWF_setCell _ _ _ _ hwf1 (by omega)
        exact getCell_setCell_self _ _ _ _ hwf2 (by omega) (by omega)

set_option maxHeartbeats 2000000 in
/-- Claim C1 (amended): every failing `apply_move` leaves `current_turn`,
`game_status` and the history unchanged, and leaves the whole state
unchanged unless the failure is `invalidPromotion`; in that one case the
board has already been written when the error is raised (see the
counterexample). -/
theorem C1_failed_move_preserves_state (g : GameState) (s t : String) (p : Option String)
    (e : ChessError) (g' : GameState)
    (h : apply_move g s t p = (.error e, g')) :
    g'.current_turn = g.current_turn ∧ g'.game_status = g.game_status ∧
    g'.history = g.history ∧ (e ≠ ChessError.invalidPromotion → g' = g) := by
  simp only [apply_move] at h
  repeat' split at h
  all_goals
    first
    | exact Except.noConfusion (congrArg Prod.fst h)
    | (rw [Prod.mk.injEq] at h
       obtain ⟨h1, h2⟩ := h
       simp only [Except.error.injEq] at h1
       subst h1
       subst h2
       first
       | exact ⟨rfl, rfl, rfl, fun hne => rfl⟩
       | exact ⟨rfl, rfl, rfl, fun hne => absurd rfl hne⟩)

/-- Claim C4 (amended): for a non-capturing pawn move that has passed the
promotion-code check, a file change fails with `illegalPawnMove`; a single
step forward succeeds iff the destination is empty, else `pawnBlocked`; a
double step from the start row succeeds iff the intermediate and destination
cells are both empty, else `pawnBlocked`; a double step from any other row,
like every remaining `dr`, fails with `illegalPawnMove` (not `pawnBlocked`
as the original claim stated). -/
theorem C4_pawn_forward_moves (b : Board) (piece : Piece) (fr to_ : Nat × Nat) (dr dc : Int)
    (promo : Option String)
    (hp : promo = none ∨ to_.1 = 0 ∨ to_.1 = 7) :
    (dc ≠ 0 → validate_pawn_move b piece fr to_ dr dc false promo =
        .error .illegalPawnMove) ∧
    (dc = 0 → dr = direction piece.color →
      validate_pawn_move b piece fr to_ dr dc false promo =
        (if (getCell b to_.1 to_.2).isSome then .error .pawnBlocked else .ok ())) ∧
    (dc = 0 → dr = 2 * direction piece.color → fr.1 = start_row piece.color →
      validate_pawn_move b piece fr to_ dr dc false promo =
        (if (getCellI b ((fr.1 : Int) + direction piece.color) (fr.2 : Int)).isSome ∨
            (getCell b to_.1 to_.2).isSome
         then .error .pawnBlocked else .ok ())) ∧
    (dc = 0 → dr = 2 * direction piece.color → fr.1 ≠ start_row piece.color →
      validate_pawn_move b piece fr to_ dr dc false promo =
        .error .illegalPawnMove) ∧
    (dc = 0 → dr ≠ direction piece.color → dr ≠ 2 * direction piece.color →
      validate_pawn_move b piece fr to_ dr dc false promo =
        .error .illegalPawnMove) := by
  have hdir : direction piece.color ≠ 0 := by
    cases piece.color <;> simp [direction]
  have hpromo : ¬(promo.isSome = true ∧ ¬(to_.1 = 0 ∨ to_.1 = 7)) := by
    rcases hp with h | h | h
    · subst h
      simp
    · exact fun hc => hc.2 (Or.inl h)
    · exact fun hc => hc.2 (Or.inr h)
  refine ⟨fun hdc => ?_, fun hdc hdr => ?_, fun hdc hdr hrow => ?_,
    fun hdc hdr hrow => ?_, fun hdc hdr1 hdr2 => ?_⟩
  · rw [validate_pawn_move, if_neg hpromo, if_neg (by simp), if_pos hdc]
  · rw [validate_pawn_move, if_neg hpromo, if_neg (by simp), if_neg (by simp [hdc]),
      if_pos hdr]
  · rw [validate_pawn_move, if_neg hpromo, if_neg (by simp), if_neg (by simp [hdc]),
      if_neg (by rw [hdr]; intro hc; apply hdir; omega),
      if_pos ⟨hrow, hdr⟩]
    by_cases h1 : (getCellI b ((fr.1 : Int) + direction piece.color) (fr.2 : Int)).isSome = true
    · rw [if_pos h1, if_pos (Or.inl h1)]
    · rw [if_neg h1]
      by_cases h2 : (getCell b to_.1 to_.2).isSome = true
      · rw [if_pos h2, if_pos (Or.inr h2)]
      · rw [if_neg h2, if_neg (by rintro (hc | hc) <;> contradiction)]
  · rw [validate_pawn_move, if_neg hpromo, if_neg (by simp), if_neg (by simp [hdc]),
      if_neg (by rw [hdr]; intro hc; apply hdir; omega),
      if_neg (fun hc => hrow hc.1)]
  · rw [validate_pawn_move, if_neg hpromo, if_neg (by simp), if_neg (by simp [hdc]),
      if_neg hdr1, if_neg (fun hc => hdr2 hc.2)]

lemma apply_move_same_parse (g : GameState) (s t : String) (p : Option String)
    (fr : Nat × Nat) (hst : s ≠ t) (hs : algebraic_to_index s = .ok fr)
    (ht : algebraic_to_index t = .ok fr) :
    ∃ e, apply_move g s t p = (.error e, g) ∧ e ≠ ChessError.sameSquare := by
  have hg : g.game_status = GameStatus.in_progress := status_eq g
  simp only [apply_move, hg, hs, ht, ne_eq, not_true_eq_false, if_false, if_neg hst]
  cases hcell : getCell g.board fr.1 fr.2 with
  | none =>
    refine ⟨.emptySource s, ?_, by simp⟩
    simp [hcell]
  | some pc =>
    by_cases hc : pc.color = g.current_turn
    · refine ⟨.friendlyCapture, ?_, by simp⟩
      simp [hcell, hc]
    · refine ⟨.wrongTurn g.current_turn, ?_, by simp⟩
      simp [hcell, hc]

/-- Claim C2 (amended): `apply_move` reports `sameSquare` exactly when the
two input strings are character-identical — checked before parsing, so two
identical malformed strings also give `sameSquare`; two distinct strings
that denote the same square after case normalization pass this check and
fail later with a different error (never `sameSquare`), leaving the state
unchanged. -/
theorem C2_same_square_requires_identical_strings :
    (∀ (g : GameState) (s : String) (p : Option String),
        apply_move g s s p = (.error ChessError.sameSquare, g)) ∧
    (∀ (g : GameState) (s t : String) (p : Option String) (fr : Nat × Nat),
        s ≠ t → algebraic_to_index s = .ok fr → algebraic_to_index t = .ok fr →
        (apply_move g s t p).1.isOk = false ∧
        (apply_move g s t p).1 ≠ .error ChessError.sameSquare ∧
        (apply_move g s t p).2 = g) := by
  refine ⟨apply_move_same_square, fun g s t p fr hst hs ht => ?_⟩
  obtain ⟨e, he, hne⟩ := apply_move_same_parse g s t p fr hst hs ht
  rw [he]
  refine ⟨rfl, ?_, rfl⟩
  simp [hne]

/-- Claim C5: a bishop, rook or queen move whose `(dr, dc)` matches the
piece's legal pattern validates successfully iff every cell strictly between
the squares is unoccupied, failing with `pathBlocked` otherwise; knight and
king validation never inspects the board at all. -/
theorem C5_slider_path_requirement (b b' : Board) (piece : Piece) (fr to_ : Nat × Nat)
    (cap : Bool) (promo : Option String)
    (hfr1 : fr.1 < 8) (hfr2 : fr.2 < 8) (hto1 : to_.1 < 8) (hto2 : to_.2 < 8) :
    (piece.type = PieceType.bishop →
      ((to_.1 : Int) - fr.1).natAbs = ((to_.2 : Int) - fr.2).natAbs →
      (to_.1 : Int) - fr.1 ≠ 0 →
      validate_piece_move b piece fr to_ cap promo =
        if path_clear b fr to_ then .ok () else .error .pathBlocked) ∧
    (piece.type = PieceType.rook →
      ((to_.1 : Int) - fr.1 = 0 ∨ (to_.2 : Int) - fr.2 = 0) →
      ¬((to_.1 : Int) - fr.1 = 0 ∧ (to_.2 : Int) - fr.2 = 0) →
      validate_piece_move b piece fr to_ cap promo =
        if path_clear b fr to_ then .ok () else .error .pathBlocked) ∧
    (piece.type = PieceType.queen →
      ((((to_.1 : Int) - fr.1).natAbs = ((to_.2 : Int) - fr.2).natAbs ∧
          (to_.1 : Int) - fr.1 ≠ 0) ∨
        Xor' ((to_.1 : Int) - fr.1 = 0) ((to_.2 : Int) - fr.2 = 0)) →
      validate_piece_move b piece fr to_ cap promo =
        if path_clear b fr to_ then .ok () else .error .pathBlocked) ∧
    (piece.type = PieceType.knight ∨ piece.type = PieceType.king →
      validate_piece_move b piece fr to_ cap promo =
        validate_piece_move b' piece fr to_ cap promo) :=
  ⟨fun hty hd hz => bishop_spec b piece fr to_ cap promo hfr1 hfr2 hto1 hto2 hty hd hz,
   fun hty hp hnb => rook_spec b piece fr to_ cap promo hfr1 hfr2 hto1 hto2 hty hp hnb,
   fun hty hp => queen_spec b piece fr to_ cap promo hfr1 hfr2 hto1 hto2 hty hp,
   fun hty => knight_king_no_path b b' piece fr to_ cap cap promo promo hty⟩

/-- Claim C10: on distinct in-bounds squares lying on one row, column or
diagonal — the precondition the slider pattern checks establish — the
clear-path check terminates (never exhausts its fuel), its behavior is fully
determined by the `max(|dr|,|dc|) - 1` strictly-between cells, and every one
of those cells lies inside the 8x8 board. -/
theorem C10_clear_path_termination (b : Board) (fr to_ : Nat × Nat)
    (hfr1 : fr.1 < 8) (hfr2 : fr.2 < 8) (hto1 : to_.1 < 8) (hto2 : to_.2 < 8)
    (ha : aligned fr to_) :
    require_clear_path b fr to_ =
      (if path_clear b fr to_ then .ok () else .error .pathBlocked) ∧
    (between_cells fr to_).length =
      max ((to_.1 : Int) - (fr.1 : Int)).natAbs ((to_.2 : Int) - (fr.2 : Int)).natAbs - 1 ∧
    (∀ p ∈ between_cells fr to_, 0 ≤ p.1 ∧ p.1 < 8 ∧ 0 ≤ p.2 ∧ p.2 < 8) ∧
    require_clear_path b fr to_ ≠ .error ChessError.nonterminating := by
  have hspec := require_clear_path_spec b fr to_ hfr1 hfr2 hto1 hto2 ha
  refine ⟨hspec, between_cells_length fr to_,
    between_cells_bounds fr to_ hfr1 hfr2 hto1 hto2 ha, ?_⟩
  rw [hspec]
  split_ifs <;> simp

/-- Claim C1 counterexample: with a lone white pawn on a7,
`apply_move "a7" "a8"` with the invalid promotion code `"x"` fails with
`invalidPromotion` yet leaves the board mutated — the pawn has been moved —
so the GameState is not identical before and after this failing call. -/
theorem C1_counterexample :
    apply_move testPawnState "a7" "a8" (some "x") =
      (.error ChessError.invalidPromotion, testPawnStateMoved) ∧
    testPawnStateMoved ≠ testPawnState := by
  decide

/-- Claim C2 counterexample: `"E2"` and `"e2"` denote the same square after
case normalization but are different strings, so the call is not rejected as
`sameSquare`; it reaches the friendly-capture check instead. -/
theorem C2_counterexample :
    apply_move GAME "E2" "e2" none = (.error ChessError.friendlyCapture, GAME) ∧
    ChessError.friendlyCapture ≠ ChessError.sameSquare := by
  decide

/-- Claim C4 counterexample: a white pawn on e5 attempting the double step
e5-e7 (dr = 2·direction, clear cells) fails with `illegalPawnMove`, not
`pawnBlocked`: the double step is only recognized from the start row. -/
theorem C4_counterexample :
    apply_move doubleStepState "e5" "e7" none =
      (.error ChessError.illegalPawnMove, doubleStepState) ∧
    ChessError.illegalPawnMove ≠ ChessError.pawnBlocked := by
  decide

/-- Claim C1 witness: the theorem applied to the rejected call
`apply_move GAME "e2" "e2"`. -/
theorem C1_witness :
    GAME.current_turn = GAME.current_turn ∧ GAME.game_status = GAME.game_status ∧
    GAME.history = GAME.history ∧
    (ChessError.sameSquare ≠ ChessError.invalidPromotion → GAME = GAME) :=
  C1_failed_move_preserves_state GAME "e2" "e2" none ChessError.sameSquare GAME (by decide)

/-- Claim C2 witness: both halves of the theorem at concrete inputs. -/
theorem C2_witness :
    apply_move GAME "e2" "e2" none = (.error ChessError.sameSquare, GAME) ∧
    ((apply_move GAME "E2" "e2" none).1.isOk = false ∧
     (apply_move GAME "E2" "e2" none).1 ≠ .error ChessError.sameSquare ∧
     (apply_move GAME "E2" "e2" none).2 = GAME) :=
  ⟨C2_same_square_requires_identical_strings.1 GAME "e2" none,
   C2_same_square_requires_identical_strings.2 GAME "E2" "e2" none (6, 4)
     (by decide) (by decide) (by decide)⟩

/-- Claim C3 witness: `e2-e3` with promotion code `"q"` from the start
position is rejected as `promotionNotAllowed`. -/
theorem C3_witness :
    apply_move GAME "e2" "e3" (some "q") =
      (.error ChessError.promotionNotAllowed, GAME) :=
  C3_promotion_not_allowed_precedence GAME "e2" "e3" "q" (6, 4) (5, 4)
    { type := PieceType.pawn, color := Color.white }
    (by decide) (by decide) (by decide) (by decide) rfl (by decide)
    (by
      intro tp h
      have h2 : (getCell GAME.board (5, 4).1 (5, 4).2).isSome = false := by decide
      rw [h] at h2
      simp at h2)
    (by decide) (by decide)

/-- Claim C4 witness: the single-step case of the theorem at `e2-e3` on the
initial board. -/
theorem C4_witness :
    validate_pawn_move GAME.board { type := PieceType.pawn, color := Color.white }
      (6, 4) (5, 4) (-1) 0 false none =
      (if (getCell GAME.board (5, 4).1 (5, 4).2).isSome then Except.error ChessError.pawnBlocked
       else Except.ok ()) :=
  (C4_pawn_forward_moves GAME.board { type := PieceType.pawn, color := Color.white }
    (6, 4) (5, 4) (-1) 0 none (Or.inl rfl)).2.1 rfl rfl

/-- Claim C5 witness: the bishop case of the theorem for f1-b5 on the
initial board (the diagonal runs through the occupied e2). -/
theorem C5_witness :
    validate_piece_move GAME.board { type := PieceType.bishop, color := Color.white }
      (7, 5) (3, 1) false none =
      (if path_clear GAME.board (7, 5) (3, 1) then Except.ok ()
       else Except.error ChessError.pathBlocked) :=
  (C5_slider_path_requirement GAME.board GAME.board
    { type := PieceType.bishop, color := Color.white } (7, 5) (3, 1) false none
    (by decide) (by decide) (by decide) (by decide)).1 rfl (by decide) (by decide)

/-- Claim C6 witness: the promotion a7-a8 with no code from
`testPawnState`. -/
theorem C6_witness :
    getCell promoState.board (0, 0).1 (0, 0).2 =
      some { type := PieceType.queen, color := Color.white } ∧
    promoRec.promotion = some "q" ∧
    promoRec.piece = { type := PieceType.pawn, color := Color.white } :=
  C6_promotion_default_queen testPawnState "a7" "a8" (1, 0) (0, 0) Color.white
    (by exact ⟨by decide, by decide⟩) (by decide) (by decide) (by decide)
    (Or.inl rfl) promoRec promoState (by decide)

/-- Claim C7 witness: the round trip at the mixed-case square `"E2"`. -/
theorem C7_witness :
    ((algebraic_to_index "E2").bind fun i =>
      (index_to_algebraic i).bind fun t => algebraic_to_index t) =
      algebraic_to_index "E2" :=
  C7_square_roundtrip "E2" (by decide)

/-- Claim C9 witness: the knight move b1-c3 with a garbage promotion code
behaves exactly like the same move without one. -/
theorem C9_witness :
    apply_move GAME "b1" "c3" (some "x") = apply_move GAME "b1" "c3" none :=
  (C9_nonpawn_ignores_promotion GAME "b1" "c3" (some "x") (7, 1)
    { type := PieceType.knight, color := Color.white }
    (by decide) (by decide) (by decide)).1

/-- Claim C10 witness: the equation component of the theorem on the f1-b5
diagonal of the initial board. -/
theorem C10_witness :
    require_clear_path GAME.board (7, 5) (3, 1) =
      (if path_clear GAME.board (7, 5) (3, 1) then Except.ok ()
       else Except.error ChessError.pathBlocked) :=
  (C10_clear_path_termination GAME.board (7, 5) (3, 1)
    (by decide) (by decide) (by decide) (by decide)
    (by exact ⟨by decide, Or.inr (Or.inr (by decide))⟩)).1


end ChessEngine
